import Mathlib

/-!
Shallow embedding of the dynamic-form application
(`src/renderer.js` and `src/script.js`): the answer model, the
per-field-type renderers with their model-update listeners, the
section-based form assembler, the JSON export, and the DOCX
generation path.
-/

namespace FormApp

/-- A schema descriptor, one entry of `perguntas.json`
(`FieldDescriptor` in the spec): `type`, `id`, `text`, optional
`options` list and `has_observation` flag. -/
structure Item where
  type : String
  id : String
  text : String
  options : Option (List String) := none
  has_observation : Bool := false
deriving DecidableEq, Repr

/-- The answer model (`export const model = {}` in renderer.js):
a JS object mapping string keys to string values, embedded as an
association list in insertion order. -/
abbrev Model := List (String × String)

/-- JS property assignment `model[k] = v`: overwrite the first
occurrence of `k` in place, or append a fresh key at the end. -/
def setKey (m : Model) (k v : String) : Model :=
  match m with
  | [] => [(k, v)]
  | (k', v') :: rest => if k' = k then (k, v) :: rest else (k', v') :: setKey rest k v

/-- JS property read `model[k]`: `none` models `undefined`. -/
def getKey (m : Model) (k : String) : Option String :=
  match m with
  | [] => none
  | (k', v') :: rest => if k' = k then some v' else getKey rest k

/-- The key set of a model, in insertion order. -/
def keysOf (m : Model) : List String := m.map Prod.fst

/-! ### Model-update listeners

Each renderer in renderer.js attaches a closure that writes the raw
event value into `model`; these are those closures, with the event's
`target.value` passed explicitly. -/

/-- renderer.js line 63: `e => model[item.id] = e.target.value`
on the `text` input. -/
def textInputListener (item : Item) (value : String) (m : Model) : Model :=
  setKey m item.id value

/-- renderer.js line 74: the same closure on the `number` input. -/
def numberInputListener (item : Item) (value : String) (m : Model) : Model :=
  setKey m item.id value

/-- renderer.js line 85: the same closure on the `date` input. -/
def dateInputListener (item : Item) (value : String) (m : Model) : Model :=
  setKey m item.id value

/-- renderer.js line 96: the same closure on the `textarea`. -/
def textareaInputListener (item : Item) (value : String) (m : Model) : Model :=
  setKey m item.id value

/-- renderer.js line 113: `e => model[item.id] = e.target.value` on a
sim/nao radio change. -/
def simNaoChangeListener (item : Item) (value : String) (m : Model) : Model :=
  setKey m item.id value

/-- renderer.js line 118: `e => model[item.id + "_obs"] = e.target.value`
on the observation textarea (attached only when `has_observation`). -/
def simNaoObsListener (item : Item) (value : String) (m : Model) : Model :=
  setKey m (item.id ++ "_obs") value

/-- renderer.js line 134: radio-group change listener. -/
def radioChangeListener (item : Item) (value : String) (m : Model) : Model :=
  setKey m item.id value

/-- script.js line 77: `model[e.target.id] = e.target.value` for
text/number/date/textarea/select inputs. -/
def scriptInputListener (id value : String) (m : Model) : Model :=
  setKey m id value

/-- script.js line 87: `model[name] = e.target.value` on a radio change. -/
def scriptRadioListener (name value : String) (m : Model) : Model :=
  setKey m name value

/-- script.js line 96: `model[e.target.id] = e.target.value` on a slider. -/
def scriptSliderListener (id value : String) (m : Model) : Model :=
  setKey m id value

/-! ### Rendered units and per-item rendering -/

/-- A rendered field unit: the DOM block a renderer function returns,
abstracted to the descriptor it was built from (plus, for radio, the
dereferenced options list). -/
inductive RUnit where
  | textU (item : Item)
  | numberU (item : Item)
  | dateU (item : Item)
  | textareaU (item : Item)
  | simNaoU (item : Item)
  | radioU (item : Item) (opts : List String)
deriving DecidableEq, Repr

/-- renderer.js `renderText`. -/
def renderText (item : Item) : RUnit := RUnit.textU item

/-- renderer.js `renderNumber`. -/
def renderNumber (item : Item) : RUnit := RUnit.numberU item

/-- renderer.js `renderDate`. -/
def renderDate (item : Item) : RUnit := RUnit.dateU item

/-- renderer.js `renderTextarea`. -/
def renderTextarea (item : Item) : RUnit := RUnit.textareaU item

/-- renderer.js `renderSimNao`. -/
def renderSimNao (item : Item) : RUnit := RUnit.simNaoU item

/-- renderer.js `renderRadio`: dereferences `item.options.map(...)`
without a guard, so an absent options list is a thrown TypeError. -/
def renderRadio (item : Item) : Except String RUnit :=
  match item.options with
  | none => Except.error "TypeError: item.options is undefined"
  | some opts => Except.ok (RUnit.radioU item opts)

/-- renderer.js `renderItem`: the switch over `item.type`. Result is
the produced unit (`none` for the warning default branch) together
with the console-warning log; `Except.error` models a thrown
exception. -/
def renderItem (item : Item) : Except String (Option RUnit × List String) :=
  if item.type = "text" then Except.ok (some (renderText item), [])
  else if item.type = "number" then Except.ok (some (renderNumber item), [])
  else if item.type = "date" then Except.ok (some (renderDate item), [])
  else if item.type = "textarea" then Except.ok (some (renderTextarea item), [])
  else if item.type = "sim_nao" then Except.ok (some (renderSimNao item), [])
  else if item.type = "radio" then (renderRadio item).map (fun u => (some u, []))
  else Except.ok (none, ["Tipo desconhecido: " ++ item.type])

/-- A collapsible section: its title text and the field units appended
into its content div, in order. -/
structure Section where
  label : String
  fields : List RUnit
deriving DecidableEq, Repr

/-- Flush the current section (`secAtual`) into the list of completed
sections; `none` means `secAtual === null`. -/
def pushCur (done : List Section) (cur : Option Section) : List Section :=
  match cur with
  | none => done
  | some c => done ++ [c]

/-- Append a unit to the current section's content. -/
def appendCur (cur : Option Section) (u : RUnit) : Option Section :=
  match cur with
  | none => none
  | some c => some ⟨c.label, c.fields ++ [u]⟩

/-- The loop body of renderer.js `renderFormulario` (the `forEach`
over `perguntas`), with the DOM state made explicit: sections already
closed, the currently open section, the console log, and—since the
`forEach` has no try/catch—the first thrown render error, which stops
the iteration. -/
def renderLoop (done : List Section) (cur : Option Section) (log : List String) :
    List Item → List Section × Option Section × List String × Option String
  | [] => (done, cur, log, none)
  | i :: rest =>
    if i.type = "group" then
      renderLoop (pushCur done cur) (some ⟨i.text, []⟩) log rest
    else
      -- `if (!secAtual) secAtual = createSection("Geral")`
      let cur' : Option Section := some (cur.getD ⟨"Geral", []⟩)
      match renderItem i with
      | Except.error e => (done, cur', log, some e)
      | Except.ok (none, w) => renderLoop done cur' (log ++ w) rest
      | Except.ok (some u, w) => renderLoop done (appendCur cur' u) (log ++ w) rest

/-- renderer.js `renderFormulario` after the schema is loaded: the
final ordered section list visible in the DOM, the console log, and
the uncaught error if one was thrown. -/
def renderForm (ds : List Item) : List Section × List String × Option String :=
  let r := renderLoop [] none [] ds
  (pushCur r.1 r.2.1, r.2.2.1, r.2.2.2)

/-- The ordered list of section labels the assembly produced. -/
def sectionLabels (ds : List Item) : List String :=
  (renderForm ds).1.map Section.label

/-- All rendered field units in document order. -/
def renderedUnits (ds : List Item) : List RUnit :=
  ((renderForm ds).1.map Section.fields).flatten

/-! ### Order characterization of the assembly -/

/-- The units a descriptor tail contributes, in descriptor order
(stopping at the first thrown render error). -/
def newUnits : List Item → List RUnit
  | [] => []
  | i :: rest =>
    if i.type = "group" then newUnits rest
    else match renderItem i with
      | Except.error _ => []
      | Except.ok (none, _) => newUnits rest
      | Except.ok (some u, _) => u :: newUnits rest

/-- The section labels a descriptor tail contributes, in descriptor
order; `noSec` records whether `secAtual` is still null. -/
def newLabels : Bool → List Item → List String
  | _, [] => []
  | noSec, i :: rest =>
    if i.type = "group" then i.text :: newLabels false rest
    else
      (if noSec then ["Geral"] else []) ++
      (match renderItem i with
       | Except.error _ => []
       | Except.ok _ => newLabels false rest)

/-- The current section as a zero-or-one-element list. -/
def curList (cur : Option Section) : List Section :=
  match cur with
  | none => []
  | some c => [c]

theorem pushCur_eq (done : List Section) (cur : Option Section) :
    pushCur done cur = done ++ curList cur := by
  cases cur <;> simp [pushCur, curList]

/-- The fields of the current section as a list. -/
def curFields (cur : Option Section) : List RUnit :=
  match cur with
  | none => []
  | some c => c.fields

theorem renderLoop_nil (done : List Section) (cur : Option Section) (log : List String) :
    renderLoop done cur log [] = (done, cur, log, none) := rfl

theorem renderLoop_cons_group {i : Item} (h : i.type = "group")
    (done : List Section) (cur : Option Section) (log : List String) (rest : List Item) :
    renderLoop done cur log (i :: rest) =
      renderLoop (pushCur done cur) (some ⟨i.text, []⟩) log rest := by
  simp [renderLoop, h]

theorem renderLoop_cons_error {i : Item} {e : String} (hg : i.type ≠ "group")
    (hri : renderItem i = Except.error e)
    (done : List Section) (cur : Option Section) (log : List String) (rest : List Item) :
    renderLoop done cur log (i :: rest) =
      (done, some (cur.getD ⟨"Geral", []⟩), log, some e) := by
  simp [renderLoop, hg, hri]

theorem renderLoop_cons_ok_none {i : Item} {w : List String} (hg : i.type ≠ "group")
    (hri : renderItem i = Except.ok (none, w))
    (done : List Section) (cur : Option Section) (log : List String) (rest : List Item) :
    renderLoop done cur log (i :: rest) =
      renderLoop done (some (cur.getD ⟨"Geral", []⟩)) (log ++ w) rest := by
  simp [renderLoop, hg, hri]

theorem renderLoop_cons_ok_some {i : Item} {u : RUnit} {w : List String}
    (hg : i.type ≠ "group") (hri : renderItem i = Except.ok (some u, w))
    (done : List Section) (cur : Option Section) (log : List String) (rest : List Item) :
    renderLoop done cur log (i :: rest) =
      renderLoop done (appendCur (some (cur.getD ⟨"Geral", []⟩)) u) (log ++ w) rest := by
  simp [renderLoop, hg, hri]

theorem renderLoop_done_prefix (es : List Item) :
    ∀ done cur log, ∃ t, (renderLoop done cur log es).1 = done ++ t := by
  induction es with
  | nil => intro done cur log; exact ⟨[], by simp [renderLoop_nil]⟩
  | cons i rest ih =>
    intro done cur log
    by_cases hg : i.type = "group"
    · obtain ⟨t, ht⟩ := ih (pushCur done cur) (some ⟨i.text, []⟩) log
      refine ⟨curList cur ++ t, ?_⟩
      rw [renderLoop_cons_group hg, ht, pushCur_eq, List.append_assoc]
    · rcases hri : renderItem i with e | ⟨u?, w⟩
      · exact ⟨[], by rw [renderLoop_cons_error hg hri]; simp⟩
      · cases u? with
        | none =>
          obtain ⟨t, ht⟩ := ih done (some (cur.getD ⟨"Geral", []⟩)) (log ++ w)
          exact ⟨t, by rw [renderLoop_cons_ok_none hg hri, ht]⟩
        | some u =>
          obtain ⟨t, ht⟩ := ih done
            (appendCur (some (cur.getD ⟨"Geral", []⟩)) u) (log ++ w)
          exact ⟨t, by rw [renderLoop_cons_ok_some hg hri, ht]⟩

theorem renderLoop_units (es : List Item) :
    ∀ done cur log,
      (((pushCur (renderLoop done cur log es).1 (renderLoop done cur log es).2.1).map
          Section.fields).flatten) =
        ((done.map Section.fields).flatten ++ curFields cur) ++ newUnits es := by
  induction es with
  | nil =>
    intro done cur log
    cases cur <;> simp [renderLoop_nil, pushCur_eq, curList, curFields, newUnits]
  | cons i rest ih =>
    intro done cur log
    by_cases hg : i.type = "group"
    · rw [newUnits, if_pos hg, renderLoop_cons_group hg,
        ih (pushCur done cur) (some ⟨i.text, []⟩) log]
      cases cur <;> simp [pushCur_eq, curList, curFields]
    · rcases hri : renderItem i with e | ⟨u?, w⟩
      · rw [newUnits, if_neg hg, hri, renderLoop_cons_error hg hri]
        cases cur <;> simp [pushCur_eq, curList, curFields]
      · cases u? with
        | none =>
          rw [newUnits, if_neg hg, hri, renderLoop_cons_ok_none hg hri,
            ih done (some (cur.getD ⟨"Geral", []⟩)) (log ++ w)]
          cases cur <;> simp [curFields]
        | some u =>
          rw [newUnits, if_neg hg, hri, renderLoop_cons_ok_some hg hri,
            ih done (appendCur (some (cur.getD ⟨"Geral", []⟩)) u) (log ++ w)]
          cases cur <;> simp [curFields, appendCur]

theorem renderedUnits_eq_newUnits (ds : List Item) :
    renderedUnits ds = newUnits ds := by
  have := renderLoop_units ds [] none []
  simpa [renderedUnits, renderForm, curFields] using this

/-- The label of the current section as a list. -/
def curLabel (cur : Option Section) : List String :=
  match cur with
  | none => []
  | some c => [c.label]

theorem renderLoop_labels (es : List Item) :
    ∀ done cur log,
      ((pushCur (renderLoop done cur log es).1 (renderLoop done cur log es).2.1).map
          Section.label) =
        (done.map Section.label ++ curLabel cur) ++ newLabels cur.isNone es := by
  induction es with
  | nil =>
    intro done cur log
    cases cur <;> simp [renderLoop, pushCur_eq, curList, curLabel, newLabels]
  | cons i rest ih =>
    intro done cur log
    by_cases hg : i.type = "group"
    · rw [newLabels, if_pos hg, renderLoop_cons_group hg,
        ih (pushCur done cur) (some ⟨i.text, []⟩) log]
      cases cur <;> simp [pushCur_eq, curList, curLabel]
    · rcases hri : renderItem i with e | ⟨u?, w⟩
      · rw [newLabels, if_neg hg, hri, renderLoop_cons_error hg hri]
        cases cur <;> simp [pushCur_eq, curList, curLabel]
      · cases u? with
        | none =>
          rw [newLabels, if_neg hg, hri, renderLoop_cons_ok_none hg hri,
            ih done (some (cur.getD ⟨"Geral", []⟩)) (log ++ w)]
          cases cur <;> simp [curLabel]
        | some u =>
          rw [newLabels, if_neg hg, hri, renderLoop_cons_ok_some hg hri,
            ih done (appendCur (some (cur.getD ⟨"Geral", []⟩)) u) (log ++ w)]
          cases cur <;> simp [curLabel, appendCur]

theorem sectionLabels_eq_newLabels (ds : List Item) :
    sectionLabels ds = newLabels true ds := by
  have := renderLoop_labels ds [] none []
  simpa [sectionLabels, renderForm, curLabel] using this

/-- Once a section is open, it stays the first section and collects the
units of the remaining leading non-group descriptors. -/
theorem renderLoop_head_cur (es : List Item) :
    ∀ c log,
      (pushCur (renderLoop [] (some c) log es).1
          (renderLoop [] (some c) log es).2.1).head? =
        some ⟨c.label,
          c.fields ++ newUnits (es.takeWhile (fun i => decide (i.type ≠ "group")))⟩ := by
  induction es with
  | nil => intro c log; simp [renderLoop_nil, pushCur, newUnits]
  | cons i rest ih =>
    intro c log
    by_cases hg : i.type = "group"
    · rw [renderLoop_cons_group hg]
      obtain ⟨t, ht⟩ :=
        renderLoop_done_prefix rest (pushCur [] (some c)) (some ⟨i.text, []⟩) log
      rw [pushCur_eq, ht]
      simp [pushCur, List.takeWhile_cons, hg, newUnits]
    · rcases hri : renderItem i with e | ⟨u?, w⟩
      · rw [renderLoop_cons_error hg hri]
        simp [pushCur, List.takeWhile_cons, hg, newUnits, hri]
      · cases u? with
        | none =>
          rw [renderLoop_cons_ok_none hg hri]
          have := ih c (log ++ w)
          simp only [Option.getD] at *
          rw [this]
          simp [List.takeWhile_cons, hg, newUnits, hri]
        | some u =>
          rw [renderLoop_cons_ok_some hg hri]
          have := ih ⟨c.label, c.fields ++ [u]⟩ (log ++ w)
          simp only [appendCur, Option.getD] at *
          rw [this]
          simp [List.takeWhile_cons, hg, newUnits, hri]

/-- When the first descriptor is not a group, the first section of the
assembled form is the implicitly created "Geral" section, and it holds
exactly the units of the leading run of non-group descriptors. -/
theorem renderForm_head_geral {i : Item} (hg : i.type ≠ "group") (rest : List Item) :
    (renderForm (i :: rest)).1.head? =
      some ⟨"Geral",
        newUnits ((i :: rest).takeWhile (fun x => decide (x.type ≠ "group")))⟩ := by
  unfold renderForm
  rcases hri : renderItem i with e | ⟨u?, w⟩
  · rw [renderLoop_cons_error hg hri]
    simp [pushCur, List.takeWhile_cons, hg, newUnits, hri]
  · cases u? with
    | none =>
      rw [renderLoop_cons_ok_none hg hri]
      have := renderLoop_head_cur rest ⟨"Geral", []⟩ ([] ++ w)
      simp only [Option.getD] at *
      rw [this]
      simp [List.takeWhile_cons, hg, newUnits, hri]
    | some u =>
      rw [renderLoop_cons_ok_some hg hri]
      have := renderLoop_head_cur rest ⟨"Geral", [u]⟩ ([] ++ w)
      simp only [appendCur, Option.getD, List.nil_append] at *
      rw [this]
      simp [List.takeWhile_cons, hg, newUnits, hri]

/-! ### Key lemmas about the answer model -/

theorem getKey_setKey_self (m : Model) (k v : String) :
    getKey (setKey m k v) k = some v := by
  induction m with
  | nil => simp [setKey, getKey]
  | cons p rest ih =>
    obtain ⟨k', v'⟩ := p
    by_cases hk : k' = k
    · simp [setKey, getKey, hk]
    · simp [setKey, getKey, hk, ih]

theorem getKey_setKey_ne (m : Model) (k v k' : String) (h : k' ≠ k) :
    getKey (setKey m k v) k' = getKey m k' := by
  induction m with
  | nil => simp [setKey, getKey, Ne.symm h]
  | cons p rest ih =>
    obtain ⟨k0, v0⟩ := p
    by_cases hk : k0 = k
    · subst hk
      simp [setKey, getKey, Ne.symm h]
    · simp [setKey, getKey, hk, ih]

theorem keysOf_subset_setKey (m : Model) (k v : String) :
    ∀ a ∈ keysOf m, a ∈ keysOf (setKey m k v) := by
  induction m with
  | nil => simp [keysOf]
  | cons p rest ih =>
    obtain ⟨k0, v0⟩ := p
    intro a ha
    by_cases hk : k0 = k
    · simpa [keysOf, setKey, hk] using ha
    · rw [setKey, if_neg hk]
      simp only [keysOf, List.map_cons, List.mem_cons] at ha ⊢
      rcases ha with ha | ha
      · exact Or.inl ha
      · exact Or.inr (ih a ha)

/-- A string never equals itself with the observation suffix appended. -/
theorem ne_append_obs (s : String) : s ≠ s ++ "_obs" := by
  intro h
  have hlen := congrArg String.length h
  rw [String.length_append] at hlen
  have h4 : String.length "_obs" = 4 := rfl
  omega

/-! ### JSON export

renderer.js `btnSalvar` click handler: `JSON.stringify(model, null, 2)`,
i.e. a pretty-printed object of string values with two-space
indentation, downloaded as `respostas.json`. The serializer below
follows `JSON.stringify`'s output format exactly; the parser below is
an inverse used to state the round-trip property. -/

/-- Lowercase hexadecimal digit, as emitted in `\u00XX` escapes. -/
def hexDigit (n : Nat) : Char :=
  if n < 10 then Char.ofNat (48 + n) else Char.ofNat (87 + n)

/-- Decode one hexadecimal digit. -/
def unhexDigit (c : Char) : Option Nat :=
  if 48 ≤ c.toNat ∧ c.toNat ≤ 57 then some (c.toNat - 48)
  else if 97 ≤ c.toNat ∧ c.toNat ≤ 102 then some (c.toNat - 87)
  else if 65 ≤ c.toNat ∧ c.toNat ≤ 70 then some (c.toNat - 55)
  else none

/-- `JSON.stringify`'s escaping of one character inside a string
literal. -/
def escapeChar (c : Char) : List Char :=
  if c = '"' then ['\\', '"']
  else if c = '\\' then ['\\', '\\']
  else if c = '\x08' then ['\\', 'b']
  else if c = '\x09' then ['\\', 't']
  else if c = '\x0a' then ['\\', 'n']
  else if c = '\x0c' then ['\\', 'f']
  else if c = '\x0d' then ['\\', 'r']
  else if c.toNat < 32 then
    ['\\', 'u', '0', '0', hexDigit (c.toNat / 16), hexDigit (c.toNat % 16)]
  else [c]

def escapeList : List Char → List Char
  | [] => []
  | c :: cs => escapeChar c ++ escapeList cs

/-- Decode a `\uXXXX` escape given the four digit characters. -/
def decodeU (a b c d : Char) : Option Char :=
  match unhexDigit a, unhexDigit b, unhexDigit c, unhexDigit d with
  | some x, some y, some z, some w => some (Char.ofNat (4096 * x + 256 * y + 16 * z + w))
  | _, _, _, _ => none

/-- Parse the body of a JSON string literal (after the opening quote)
up to its closing quote; returns the decoded content and the rest. -/
def parseJString : List Char → Option (List Char × List Char)
  | [] => none
  | c :: rest =>
    if c = '"' then some ([], rest)
    else if c = '\\' then
      match rest with
      | [] => none
      | e :: rest1 =>
        if e = '"' then (parseJString rest1).map (fun p => ('"' :: p.1, p.2))
        else if e = '\\' then (parseJString rest1).map (fun p => ('\\' :: p.1, p.2))
        else if e = 'b' then (parseJString rest1).map (fun p => ('\x08' :: p.1, p.2))
        else if e = 't' then (parseJString rest1).map (fun p => ('\x09' :: p.1, p.2))
        else if e = 'n' then (parseJString rest1).map (fun p => ('\x0a' :: p.1, p.2))
        else if e = 'f' then (parseJString rest1).map (fun p => ('\x0c' :: p.1, p.2))
        else if e = 'r' then (parseJString rest1).map (fun p => ('\x0d' :: p.1, p.2))
        else if e = 'u' then
          match rest1 with
          | a :: b :: c2 :: d :: rest2 =>
            match decodeU a b c2 d with
            | some ch => (parseJString rest2).map (fun p => (ch :: p.1, p.2))
            | none => none
          | _ => none
        else none
    else (parseJString rest).map (fun p => (c :: p.1, p.2))

/-- The serialized characters of one model entry, with the two-space
indentation `JSON.stringify(·, null, 2)` uses. -/
def entryChars (kv : String × String) : List Char :=
  ' ' :: ' ' :: '"' ::
    (escapeList kv.1.data ++ '"' :: ':' :: ' ' :: '"' :: (escapeList kv.2.data ++ ['"']))

/-- The remaining entries, each preceded by the `,\n` separator. -/
def sepRest : Model → List Char
  | [] => []
  | e :: rest => ',' :: '\n' :: (entryChars e ++ sepRest rest)

/-- `JSON.stringify(model, null, 2)` as a character list. -/
def stringifyChars : Model → List Char
  | [] => ['{', '}']
  | e :: rest => '{' :: '\n' :: (entryChars e ++ (sepRest rest ++ ['\n', '}']))

/-- The JSON text the save button serializes the model to. -/
def stringifyModel (m : Model) : String :=
  String.mk (stringifyChars m)

/-- Parse one `  "key": "value"` entry. -/
def parseEntry (cs : List Char) : Option ((String × String) × List Char) :=
  match cs with
  | ' ' :: ' ' :: '"' :: rest =>
    match parseJString rest with
    | none => none
    | some (k, rest1) =>
      match rest1 with
      | ':' :: ' ' :: '"' :: rest2 =>
        match parseJString rest2 with
        | none => none
        | some (v, rest3) => some ((String.mk k, String.mk v), rest3)
      | _ => none
  | _ => none

/-- Parse a nonempty entry sequence terminated by `\n}` at the end of
input; `fuel` bounds the number of entries. -/
def parseEntries : Nat → List Char → Option Model
  | 0, _ => none
  | fuel + 1, cs =>
    match parseEntry cs with
    | none => none
    | some (kv, rest) =>
      match rest with
      | '\n' :: '}' :: [] => some [kv]
      | ',' :: '\n' :: rest' => (parseEntries fuel rest').map (fun m => kv :: m)
      | _ => none

/-- Parse the exact output format of `JSON.stringify(·, null, 2)` on an
object of string values, recovering the entry list. -/
def parseExport (s : String) : Option Model :=
  match s.data with
  | ['{', '}'] => some []
  | '{' :: '\n' :: rest => parseEntries rest.length rest
  | _ => none

/-! ### Round-trip lemmas for the JSON export -/

theorem charOfNat_toNat {c : Char} (h : c.toNat < 55296) :
    Char.ofNat c.toNat = c := by
  have hv : c.toNat.isValidChar := Or.inl h
  apply Char.eq_of_val_eq
  rw [Char.ofNat, dif_pos hv]
  apply UInt32.eq_of_toBitVec_eq
  apply BitVec.eq_of_toNat_eq
  simp [Char.ofNatAux, Char.toNat]
  rfl

theorem unhexDigit_hexDigit {n : Nat} (h : n < 16) :
    unhexDigit (hexDigit n) = some n := by
  interval_cases n <;> rfl

theorem parseJString_escape (s : List Char) (rest : List Char) :
    parseJString (escapeList s ++ '"' :: rest) = some (s, rest) := by
  induction s with
  | nil => rw [escapeList, List.nil_append, parseJString.eq_def]; simp
  | cons c cs ih =>
    rw [escapeList, List.append_assoc]
    by_cases h1 : c = '"'
    · subst h1
      rw [show escapeChar '"' = ['\\', '"'] from rfl]
      simp only [List.cons_append, List.nil_append]
      rw [parseJString.eq_def]; simp [ih]
    · by_cases h2 : c = '\\'
      · subst h2
        rw [show escapeChar '\\' = ['\\', '\\'] from rfl]
        simp only [List.cons_append, List.nil_append]
        rw [parseJString.eq_def]; simp [ih]
      · by_cases h3 : c = '\x08'
        · subst h3
          rw [show escapeChar '\x08' = ['\\', 'b'] from rfl]
          simp only [List.cons_append, List.nil_append]
          rw [parseJString.eq_def]; simp [ih]
        · by_cases h4 : c = '\x09'
          · subst h4
            rw [show escapeChar '\x09' = ['\\', 't'] from rfl]
            simp only [List.cons_append, List.nil_append]
            rw [parseJString.eq_def]; simp [ih]
          · by_cases h5 : c = '\x0a'
            · subst h5
              rw [show escapeChar '\x0a' = ['\\', 'n'] from rfl]
              simp only [List.cons_append, List.nil_append]
              rw [parseJString.eq_def]; simp [ih]
            · by_cases h6 : c = '\x0c'
              · subst h6
                rw [show escapeChar '\x0c' = ['\\', 'f'] from rfl]
                simp only [List.cons_append, List.nil_append]
                rw [parseJString.eq_def]; simp [ih]
              · by_cases h7 : c = '\x0d'
                · subst h7
                  rw [show escapeChar '\x0d' = ['\\', 'r'] from rfl]
                  simp only [List.cons_append, List.nil_append]
                  rw [parseJString.eq_def]; simp [ih]
                · by_cases h8 : c.toNat < 32
                  · rw [escapeChar, if_neg h1, if_neg h2, if_neg h3, if_neg h4,
                      if_neg h5, if_neg h6, if_neg h7, if_pos h8]
                    have hhi : c.toNat / 16 < 16 := by omega
                    have hlo : c.toNat % 16 < 16 := by omega
                    have hz : unhexDigit '0' = some 0 := rfl
                    have hd : decodeU '0' '0' (hexDigit (c.toNat / 16))
                        (hexDigit (c.toNat % 16)) = some c := by
                      simp only [decodeU, hz, unhexDigit_hexDigit hhi,
                        unhexDigit_hexDigit hlo]
                      rw [show 4096 * 0 + 256 * 0 + 16 * (c.toNat / 16) + c.toNat % 16
                          = c.toNat by omega]
                      rw [charOfNat_toNat (by omega)]
                    simp only [List.cons_append, List.nil_append]
                    rw [parseJString.eq_def]
                    simp [hd, ih]
                  · rw [escapeChar, if_neg h1, if_neg h2, if_neg h3, if_neg h4,
                      if_neg h5, if_neg h6, if_neg h7, if_neg h8]
                    simp only [List.cons_append, List.nil_append]
                    rw [parseJString.eq_def]
                    simp [h1, h2, ih]

theorem stringMk_data (s : String) : String.mk s.data = s := rfl

theorem parseEntry_entryChars (kv : String × String) (suffix : List Char) :
    parseEntry (entryChars kv ++ suffix) = some (kv, suffix) := by
  obtain ⟨k, v⟩ := kv
  rw [entryChars]
  simp only [List.cons_append, List.append_assoc, List.singleton_append]
  rw [parseEntry.eq_def]
  simp only [List.cons_append]
  rw [parseJString_escape]
  simp only []
  rw [parseJString_escape]
  simp [stringMk_data]

theorem sepRest_length_ge (m : Model) : m.length ≤ (sepRest m).length := by
  induction m with
  | nil => simp [sepRest]
  | cons e rest ih => simp [sepRest]; omega

theorem parseEntries_sound (rest : Model) :
    ∀ fuel e, rest.length < fuel →
      parseEntries fuel (entryChars e ++ (sepRest rest ++ ['\n', '}'])) =
        some (e :: rest) := by
  induction rest with
  | nil =>
    intro fuel e hf
    match fuel, hf with
    | f + 1, _ =>
      rw [parseEntries, parseEntry_entryChars]
      simp [sepRest]
  | cons e2 rest2 ih =>
    intro fuel e hf
    match fuel, hf with
    | f + 1, hf =>
      rw [parseEntries, parseEntry_entryChars]
      simp only [sepRest, List.cons_append, List.append_assoc]
      have := ih f e2 (by simpa using Nat.lt_of_succ_lt_succ hf)
      simp only [List.append_assoc] at this
      simp [this]

/-- Parsing the exported JSON text recovers the model entry list
exactly. -/
theorem parseExport_stringifyModel (m : Model) :
    parseExport (stringifyModel m) = some m := by
  cases m with
  | nil => rfl
  | cons e rest =>
    rw [parseExport.eq_def, stringifyModel]
    have hdata : (String.mk (stringifyChars (e :: rest))).data
        = stringifyChars (e :: rest) := rfl
    rw [hdata]
    simp only [stringifyChars]
    have hlen : rest.length <
        (entryChars e ++ (sepRest rest ++ ['\n', '}'])).length := by
      have := sepRest_length_ge rest
      simp [List.length_append]
      omega
    have hp := parseEntries_sound rest
      ((entryChars e ++ (sepRest rest ++ ['\n', '}'])).length) e hlen
    simpa using hp

/-! ### Document generation (script.js `gerarDoc`) -/

/-- The runtime facts `gerarDoc` observes: whether the PizZip and
docxtemplater globals are defined, and whether the template fetch and
rendering succeed. -/
structure DocEnv where
  pizZipLoaded : Bool
  docxtemplaterLoaded : Bool
  fetchOk : Bool
deriving DecidableEq, Repr

/-- The observable effects of one `gerarDoc` call: the blocking
notifications shown, the URLs fetched, the filenames passed to
`saveAs`, and the answer model afterwards. -/
structure DocEffects where
  alerts : List String
  fetches : List String
  saves : List String
  modelAfter : Model
deriving DecidableEq, Repr

/-- Zero-pad to two digits, as in an ISO date's month/day fields. -/
def pad2 (n : Nat) : String :=
  if n < 10 then "0" ++ toString n else toString n

/-- Zero-pad to four digits, as in an ISO date's year field. -/
def pad4 (n : Nat) : String :=
  if n < 10 then "000" ++ toString n
  else if n < 100 then "00" ++ toString n
  else if n < 1000 then "0" ++ toString n
  else toString n

/-- The date prefix of `new Date().toISOString()` —
`toISOString().split('T')[0]` — in `YYYY-MM-DD` form. -/
def isoDate (y mo d : Nat) : String :=
  pad4 y ++ "-" ++ pad2 mo ++ "-" ++ pad2 d

/-- script.js lines 163-164: `const nome = model.ident_nome || "Paciente"`
and the template-literal filename passed to `saveAs`. -/
def docFileName (m : Model) (today : String) : String :=
  "Registro_" ++
    (match getKey m "ident_nome" with
     | none => "Paciente"
     | some v => if v = "" then "Paciente" else v) ++
    "_" ++ today ++ ".docx"

/-- script.js `gerarDoc`: the dependency check comes first and returns
after an alert; otherwise the template is fetched and, on success, the
document is saved under `docFileName`; any failure is caught and
alerted. The model is only read, never written. -/
def gerarDoc (env : DocEnv) (m : Model) (today : String) : DocEffects :=
  if env.pizZipLoaded = false ∨ env.docxtemplaterLoaded = false then
    { alerts := ["Bibliotecas PizZip/docxtemplater não carregadas!"],
      fetches := [], saves := [], modelAfter := m }
  else if env.fetchOk then
    { alerts := ["Documento gerado com sucesso!"],
      fetches := ["template.docx"],
      saves := [docFileName m today], modelAfter := m }
  else
    { alerts := ["Falha ao gerar documento. Verifique o console."],
      fetches := ["template.docx"], saves := [], modelAfter := m }

/-! ### The session operations that touch the answer model -/

/-- Every operation of a session that involves the answer model: the
per-field change bindings of both files, the two save actions, and the
document generation (the latter three only read the model). -/
inductive Op where
  | textInput (item : Item) (v : String)
  | numberInput (item : Item) (v : String)
  | dateInput (item : Item) (v : String)
  | textareaInput (item : Item) (v : String)
  | simNaoChange (item : Item) (v : String)
  | simNaoObs (item : Item) (v : String)
  | radioChange (item : Item) (v : String)
  | scriptInput (id v : String)
  | scriptRadio (name v : String)
  | scriptSlider (id v : String)
  | saveJson
  | savePaciente
  | generateDoc
deriving Repr

/-- The effect of one operation on the answer model. -/
def applyOp (op : Op) (m : Model) : Model :=
  match op with
  | Op.textInput item v => textInputListener item v m
  | Op.numberInput item v => numberInputListener item v m
  | Op.dateInput item v => dateInputListener item v m
  | Op.textareaInput item v => textareaInputListener item v m
  | Op.simNaoChange item v => simNaoChangeListener item v m
  | Op.simNaoObs item v => simNaoObsListener item v m
  | Op.radioChange item v => radioChangeListener item v m
  | Op.scriptInput id v => scriptInputListener id v m
  | Op.scriptRadio name v => scriptRadioListener name v m
  | Op.scriptSlider id v => scriptSliderListener id v m
  | Op.saveJson => m
  | Op.savePaciente => m
  | Op.generateDoc => m

/-- The recognized descriptor types: the six field renderers plus the
group marker handled by the assembler. -/
def recognizedTypes : List String :=
  ["text", "number", "date", "textarea", "sim_nao", "radio", "group"]

/-- A descriptor that renders to no unit (the warning default branch)
contributes nothing to the rendered units wherever it sits. -/
theorem newUnits_skip_middle {u : Item} (hg : u.type ≠ "group") {w : List String}
    (hru : renderItem u = Except.ok (none, w)) (ds es : List Item) :
    newUnits (ds ++ u :: es) = newUnits (ds ++ es) := by
  induction ds with
  | nil => simp [newUnits, hg, hru]
  | cons d ds' ih =>
    simp only [List.cons_append]
    by_cases hd : d.type = "group"
    · simp only [newUnits, if_pos hd]
      exact ih
    · simp only [newUnits, if_neg hd]
      rcases hrd : renderItem d with e | ⟨u?, w'⟩
      · simp [hrd]
      · cases u? <;> simp [hrd, ih]

/-- Once a descriptor throws, the iteration stops: descriptors after it
have no effect on the outcome. -/
theorem renderLoop_after_error {bad : Item} (hg : bad.type ≠ "group") {e : String}
    (hbe : renderItem bad = Except.error e) (es : List Item) (ds : List Item) :
    ∀ done cur log,
      renderLoop done cur log (ds ++ bad :: es) =
        renderLoop done cur log (ds ++ [bad]) := by
  induction ds with
  | nil =>
    intro done cur log
    rw [List.nil_append, List.nil_append, renderLoop_cons_error hg hbe,
      renderLoop_cons_error hg hbe]
  | cons d ds' ih =>
    intro done cur log
    simp only [List.cons_append]
    by_cases hd : d.type = "group"
    · rw [renderLoop_cons_group hd, renderLoop_cons_group hd, ih]
    · rcases hrd : renderItem d with e' | ⟨u?, w'⟩
      · rw [renderLoop_cons_error hd hrd, renderLoop_cons_error hd hrd]
      · cases u? with
        | none =>
          rw [renderLoop_cons_ok_none hd hrd, renderLoop_cons_ok_none hd hrd, ih]
        | some u =>
          rw [renderLoop_cons_ok_some hd hrd, renderLoop_cons_ok_some hd hrd, ih]

/-! ## Concrete descriptors used in witnesses and examples -/

def zItem : Item := ⟨"text", "z", "Z?", none, false⟩

def fooItem : Item := ⟨"foo", "q", "Q?", none, false⟩

def simNaoDor : Item := ⟨"sim_nao", "dor", "Sente dor?", none, true⟩

def radioNoOpts : Item := ⟨"radio", "y", "Y?", none, false⟩

def radioY : Item := ⟨"radio", "y", "Y?", some ["1", "2"], false⟩

def textX : Item := ⟨"text", "x", "X?", none, false⟩

def groupA : Item := ⟨"group", "", "A", none, false⟩

def groupB : Item := ⟨"group", "", "B", none, false⟩

/-! ## Claim theorems -/

/-- Claim C1: for every scalar descriptor (text, number, date,
textarea), firing an input event with value `v` stores exactly the
string `v`, verbatim, under the descriptor's id, and changes no other
key of the answer model. -/
theorem claim1_scalar_input_verbatim (item : Item) (v : String) (m : Model)
    (k : String) (hk : k ≠ item.id) :
    (getKey (textInputListener item v m) item.id = some v ∧
      getKey (textInputListener item v m) k = getKey m k) ∧
    (getKey (numberInputListener item v m) item.id = some v ∧
      getKey (numberInputListener item v m) k = getKey m k) ∧
    (getKey (dateInputListener item v m) item.id = some v ∧
      getKey (dateInputListener item v m) k = getKey m k) ∧
    (getKey (textareaInputListener item v m) item.id = some v ∧
      getKey (textareaInputListener item v m) k = getKey m k) :=
  ⟨⟨getKey_setKey_self m item.id v, getKey_setKey_ne m item.id v k hk⟩,
   ⟨getKey_setKey_self m item.id v, getKey_setKey_ne m item.id v k hk⟩,
   ⟨getKey_setKey_self m item.id v, getKey_setKey_ne m item.id v k hk⟩,
   ⟨getKey_setKey_self m item.id v, getKey_setKey_ne m item.id v k hk⟩⟩

theorem claim1_witness :
    (("k" : String) ≠ textX.id) ∧
    ((getKey (textInputListener textX "Maria" []) textX.id = some "Maria" ∧
       getKey (textInputListener textX "Maria" []) "k" = getKey ([] : Model) "k") ∧
     (getKey (numberInputListener textX "Maria" []) textX.id = some "Maria" ∧
       getKey (numberInputListener textX "Maria" []) "k" = getKey ([] : Model) "k") ∧
     (getKey (dateInputListener textX "Maria" []) textX.id = some "Maria" ∧
       getKey (dateInputListener textX "Maria" []) "k" = getKey ([] : Model) "k") ∧
     (getKey (textareaInputListener textX "Maria" []) textX.id = some "Maria" ∧
       getKey (textareaInputListener textX "Maria" []) "k" = getKey ([] : Model) "k")) :=
  ⟨by decide, claim1_scalar_input_verbatim textX "Maria" [] "k" (by decide)⟩

/-- Claim C2: assembly processes descriptors in order — each group
descriptor opens a new section labeled by its text, each rendered
non-group descriptor is appended to the most recently opened section,
so section order and field order equal descriptor order; in particular
the schema group A, text x, group B, radio y produces sections "A"
(with x) and "B" (with y), in that order. -/
theorem claim2_assembly_order :
    (∀ ds : List Item,
      sectionLabels ds = newLabels true ds ∧ renderedUnits ds = newUnits ds) ∧
    renderForm [groupA, textX, groupB, radioY] =
      ([⟨"A", [RUnit.textU textX]⟩, ⟨"B", [RUnit.radioU radioY ["1", "2"]]⟩],
        [], none) :=
  ⟨fun ds => ⟨sectionLabels_eq_newLabels ds, renderedUnits_eq_newUnits ds⟩, rfl⟩

/-- Claim C3: for a sim_nao descriptor with observation enabled,
selecting "Não" stores "Não" under the id; entering text `t` in the
observation field stores `t` under `id ++ "_obs"`; and the two keys
are independent — writing either does not change the other. -/
theorem claim3_simnao_observation (item : Item) (_hobs : item.has_observation = true)
    (t : String) (m : Model) (v : String) (m' : Model) :
    getKey (simNaoChangeListener item "Não" m) item.id = some "Não" ∧
    getKey (simNaoObsListener item t (simNaoChangeListener item "Não" m))
        (item.id ++ "_obs") = some t ∧
    getKey (simNaoObsListener item t (simNaoChangeListener item "Não" m)) item.id
        = some "Não" ∧
    getKey (simNaoObsListener item v m') item.id = getKey m' item.id ∧
    getKey (simNaoChangeListener item v m') (item.id ++ "_obs")
        = getKey m' (item.id ++ "_obs") :=
  ⟨getKey_setKey_self m item.id "Não",
   getKey_setKey_self _ (item.id ++ "_obs") t,
   (getKey_setKey_ne _ (item.id ++ "_obs") t item.id (ne_append_obs item.id)).trans
     (getKey_setKey_self m item.id "Não"),
   getKey_setKey_ne m' (item.id ++ "_obs") v item.id (ne_append_obs item.id),
   getKey_setKey_ne m' item.id v (item.id ++ "_obs") (Ne.symm (ne_append_obs item.id))⟩

theorem claim3_witness :
    simNaoDor.has_observation = true ∧
    (getKey (simNaoChangeListener simNaoDor "Não" []) simNaoDor.id = some "Não" ∧
     getKey (simNaoObsListener simNaoDor "febre"
         (simNaoChangeListener simNaoDor "Não" [])) (simNaoDor.id ++ "_obs")
       = some "febre" ∧
     getKey (simNaoObsListener simNaoDor "febre"
         (simNaoChangeListener simNaoDor "Não" [])) simNaoDor.id = some "Não" ∧
     getKey (simNaoObsListener simNaoDor "x" [("dor", "Sim")]) simNaoDor.id
       = getKey [("dor", "Sim")] simNaoDor.id ∧
     getKey (simNaoChangeListener simNaoDor "x" [("dor", "Sim")])
         (simNaoDor.id ++ "_obs")
       = getKey [("dor", "Sim")] (simNaoDor.id ++ "_obs")) :=
  ⟨rfl, claim3_simnao_observation simNaoDor rfl "febre" [] "x" [("dor", "Sim")]⟩

/-- Claim C4 counterexample: on the schema `[{type:"text", id:"z"}]`
the implicitly opened default section is labeled "Geral" (the source's
Portuguese label), not "General" as the claim states. -/
theorem claim4_counterexample :
    sectionLabels [zItem] ≠ ["General"] := by decide

/-- Claim C4 (amended): for every descriptor sequence whose first
descriptor is not a group, assembly implicitly opens a default section
labeled "Geral" before rendering, and the leading non-group
descriptors are placed in that first section; in particular
`[{type:"text", id:"z"}]` yields exactly one section labeled "Geral"
containing field z. -/
theorem claim4_default_geral {i : Item} (hg : i.type ≠ "group") (rest : List Item) :
    (renderForm (i :: rest)).1.head? =
      some ⟨"Geral",
        newUnits ((i :: rest).takeWhile (fun x => decide (x.type ≠ "group")))⟩ ∧
    renderForm [zItem] = ([⟨"Geral", [RUnit.textU zItem]⟩], [], none) :=
  ⟨renderForm_head_geral hg rest, rfl⟩

theorem claim4_witness :
    zItem.type ≠ "group" ∧
    ((renderForm [zItem]).1.head? =
      some ⟨"Geral",
        newUnits ([zItem].takeWhile (fun x => decide (x.type ≠ "group")))⟩ ∧
     renderForm [zItem] = ([⟨"Geral", [RUnit.textU zItem]⟩], [], none)) :=
  ⟨by decide, claim4_default_geral (by decide) []⟩

/-- Claim C5: the plain-data export serializes the answer model with
`JSON.stringify(model, null, 2)`, and parsing the exported text
reproduces the original mapping exactly (round-trip identity). -/
theorem claim5_export_roundtrip (m : Model) :
    parseExport (stringifyModel m) = some m :=
  parseExport_stringifyModel m

/-- Claim C6: a descriptor with an unrecognized type renders to no
unit, logs a console warning, does not throw, and does not affect the
rendering of the other descriptors of the sequence. -/
theorem claim6_unknown_type (u : Item) (hu : u.type ∉ recognizedTypes)
    (ds es : List Item) :
    renderItem u = Except.ok (none, ["Tipo desconhecido: " ++ u.type]) ∧
    renderedUnits (ds ++ u :: es) = renderedUnits (ds ++ es) := by
  have h := hu
  simp only [recognizedTypes, List.mem_cons, List.not_mem_nil, or_false,
    not_or] at h
  obtain ⟨h1, h2, h3, h4, h5, h6, h7⟩ := h
  have hri : renderItem u = Except.ok (none, ["Tipo desconhecido: " ++ u.type]) := by
    simp [renderItem, h1, h2, h3, h4, h5, h6]
  refine ⟨hri, ?_⟩
  rw [renderedUnits_eq_newUnits, renderedUnits_eq_newUnits]
  exact newUnits_skip_middle h7 hri ds es

theorem claim6_witness :
    fooItem.type ∉ recognizedTypes ∧
    (renderItem fooItem = Except.ok (none, ["Tipo desconhecido: " ++ fooItem.type]) ∧
     renderedUnits ([] ++ fooItem :: [zItem]) = renderedUnits ([] ++ [zItem])) :=
  ⟨by decide, claim6_unknown_type fooItem (by decide) [] [zItem]⟩

/-- Claim C7: when the templating dependency is absent, document
generation checks this first, reports it via a blocking alert, fetches
nothing, and leaves the answer model unchanged. -/
theorem claim7_missing_dependency (env : DocEnv) (m : Model) (today : String)
    (h : env.pizZipLoaded = false ∨ env.docxtemplaterLoaded = false) :
    gerarDoc env m today =
      { alerts := ["Bibliotecas PizZip/docxtemplater não carregadas!"],
        fetches := [], saves := [], modelAfter := m } := by
  rw [gerarDoc, if_pos h]

theorem claim7_witness :
    ((⟨false, true, true⟩ : DocEnv).pizZipLoaded = false ∨
      (⟨false, true, true⟩ : DocEnv).docxtemplaterLoaded = false) ∧
    gerarDoc ⟨false, true, true⟩ [("dor", "Sim")] "2026-10-11" =
      { alerts := ["Bibliotecas PizZip/docxtemplater não carregadas!"],
        fetches := [], saves := [], modelAfter := [("dor", "Sim")] } :=
  ⟨Or.inl rfl, claim7_missing_dependency ⟨false, true, true⟩ [("dor", "Sim")]
    "2026-10-11" (Or.inl rfl)⟩

/-- Claim C8: no operation of a session ever deletes a model entry:
each either adds a key, overwrites a key's value, or leaves the model
untouched, so the key set grows monotonically. -/
theorem claim8_keys_monotone (op : Op) (m : Model) :
    (∀ a ∈ keysOf m, a ∈ keysOf (applyOp op m)) ∧
    ((∃ k v, applyOp op m = setKey m k v) ∨ applyOp op m = m) := by
  cases op with
  | textInput item v =>
    exact ⟨keysOf_subset_setKey m item.id v, Or.inl ⟨item.id, v, rfl⟩⟩
  | numberInput item v =>
    exact ⟨keysOf_subset_setKey m item.id v, Or.inl ⟨item.id, v, rfl⟩⟩
  | dateInput item v =>
    exact ⟨keysOf_subset_setKey m item.id v, Or.inl ⟨item.id, v, rfl⟩⟩
  | textareaInput item v =>
    exact ⟨keysOf_subset_setKey m item.id v, Or.inl ⟨item.id, v, rfl⟩⟩
  | simNaoChange item v =>
    exact ⟨keysOf_subset_setKey m item.id v, Or.inl ⟨item.id, v, rfl⟩⟩
  | simNaoObs item v =>
    exact ⟨keysOf_subset_setKey m (item.id ++ "_obs") v,
      Or.inl ⟨item.id ++ "_obs", v, rfl⟩⟩
  | radioChange item v =>
    exact ⟨keysOf_subset_setKey m item.id v, Or.inl ⟨item.id, v, rfl⟩⟩
  | scriptInput id v =>
    exact ⟨keysOf_subset_setKey m id v, Or.inl ⟨id, v, rfl⟩⟩
  | scriptRadio name v =>
    exact ⟨keysOf_subset_setKey m name v, Or.inl ⟨name, v, rfl⟩⟩
  | scriptSlider id v =>
    exact ⟨keysOf_subset_setKey m id v, Or.inl ⟨id, v, rfl⟩⟩
  | saveJson => exact ⟨fun a ha => ha, Or.inr rfl⟩
  | savePaciente => exact ⟨fun a ha => ha, Or.inr rfl⟩
  | generateDoc => exact ⟨fun a ha => ha, Or.inr rfl⟩

theorem claim8_witness :
    (∀ a ∈ keysOf [("dor", "Sim")],
      a ∈ keysOf (applyOp (Op.scriptInput "obs" "x") [("dor", "Sim")])) ∧
    ((∃ k v, applyOp (Op.scriptInput "obs" "x") [("dor", "Sim")]
        = setKey [("dor", "Sim")] k v) ∨
      applyOp (Op.scriptInput "obs" "x") [("dor", "Sim")] = [("dor", "Sim")]) :=
  claim8_keys_monotone (Op.scriptInput "obs" "x") [("dor", "Sim")]

/-- Claim C9: on a successful generation, the downloaded document's
filename is composed of the patient-name field value and the current
date in YYYY-MM-DD form, with the placeholder "Paciente" substituted
when the field is empty or absent. -/
theorem claim9_doc_filename (env : DocEnv) (m : Model) (y mo d : Nat)
    (h1 : env.pizZipLoaded = true) (h2 : env.docxtemplaterLoaded = true)
    (h3 : env.fetchOk = true) :
    (gerarDoc env m (isoDate y mo d)).saves = [docFileName m (isoDate y mo d)] ∧
    (∀ v, getKey m "ident_nome" = some v → v ≠ "" →
      docFileName m (isoDate y mo d)
        = "Registro_" ++ v ++ "_" ++ isoDate y mo d ++ ".docx") ∧
    ((getKey m "ident_nome" = none ∨ getKey m "ident_nome" = some "") →
      docFileName m (isoDate y mo d)
        = "Registro_" ++ "Paciente" ++ "_" ++ isoDate y mo d ++ ".docx") := by
  refine ⟨?_, ?_, ?_⟩
  · simp [gerarDoc, h1, h2, h3]
  · intro v hv hne
    rw [docFileName, hv]
    simp [hne]
  · intro hcase
    rcases hcase with hc | hc
    · rw [docFileName, hc]
    · rw [docFileName, hc]
      rfl

theorem claim9_witness :
    ((⟨true, true, true⟩ : DocEnv).pizZipLoaded = true ∧
      (⟨true, true, true⟩ : DocEnv).docxtemplaterLoaded = true ∧
      (⟨true, true, true⟩ : DocEnv).fetchOk = true) ∧
    ((gerarDoc ⟨true, true, true⟩ [("ident_nome", "Maria")] (isoDate 2026 10 11)).saves
        = [docFileName [("ident_nome", "Maria")] (isoDate 2026 10 11)] ∧
     (∀ v, getKey [("ident_nome", "Maria")] "ident_nome" = some v → v ≠ "" →
       docFileName [("ident_nome", "Maria")] (isoDate 2026 10 11)
         = "Registro_" ++ v ++ "_" ++ isoDate 2026 10 11 ++ ".docx") ∧
     ((getKey [("ident_nome", "Maria")] "ident_nome" = none ∨
        getKey [("ident_nome", "Maria")] "ident_nome" = some "") →
       docFileName [("ident_nome", "Maria")] (isoDate 2026 10 11)
         = "Registro_" ++ "Paciente" ++ "_" ++ isoDate 2026 10 11 ++ ".docx")) :=
  ⟨⟨rfl, rfl, rfl⟩,
    claim9_doc_filename ⟨true, true, true⟩ [("ident_nome", "Maria")] 2026 10 11
      rfl rfl rfl⟩

/-- Claim C10: a radio descriptor without an options list makes the
renderer throw (the options sequence is dereferenced unguarded), and
since the assembly loop catches nothing, every descriptor after it is
left unrendered. -/
theorem claim10_radio_throws (item : Item) (h1 : item.type = "radio")
    (h2 : item.options = none) (ds es : List Item) :
    renderItem item = Except.error "TypeError: item.options is undefined" ∧
    renderForm (ds ++ item :: es) = renderForm (ds ++ [item]) := by
  have hg : item.type ≠ "group" := by rw [h1]; decide
  have hri : renderItem item = Except.error "TypeError: item.options is undefined" := by
    simp [renderItem, h1, renderRadio, h2, Except.map]
  refine ⟨hri, ?_⟩
  simp only [renderForm]
  rw [renderLoop_after_error hg hri es ds [] none []]

theorem claim10_witness :
    radioNoOpts.type = "radio" ∧ radioNoOpts.options = none ∧
    (renderItem radioNoOpts = Except.error "TypeError: item.options is undefined" ∧
     renderForm ([groupA] ++ radioNoOpts :: [zItem])
        = renderForm ([groupA] ++ [radioNoOpts])) :=
  ⟨rfl, rfl, claim10_radio_throws radioNoOpts rfl rfl [groupA] [zItem]⟩

end FormApp
